import Mathlib

/-!
Shallow embedding of src/src/table-script.tsx: the data-transformation
pipeline turning workforce source records into display rows.

JavaScript numbers are modelled as Option Rat: none stands for NaN (and
for a null value where the code produces one); arithmetic on none
propagates, mirroring NaN propagation.  parseFloat is modelled as the
leading-prefix decimal parse (optional sign, digits, optional fraction);
exponent forms and the Infinity literal are not modelled.  Strings are
Lean strings; JS object rows are association lists in insertion order.
-/

namespace UtilTable

/-- Characters skipped by parseFloat before the number starts. -/
def isJsSpace (c : Char) : Bool :=
  c == ' ' || c == '\t' || c == '\n' || c == '\r'

/-- Value of a list of decimal digit characters, most significant first. -/
def digitsToNat (cs : List Char) : Nat :=
  cs.foldl (fun a c => 10 * a + (c.toNat - 48)) 0

/-- Shape of a decimal numeral accepted by parseFloat: sign flag, integer
digits value, fraction digits value and fraction length. -/
structure ParsedNum where
  neg : Bool
  intVal : Nat
  fracVal : Nat
  fracLen : Nat
deriving DecidableEq

/-- Textual stage of JS parseFloat: skip leading whitespace, optional
sign, then digits with an optional fractional part; none when no digit
is found, modelling NaN. -/
def parseDecimal (s : String) : Option ParsedNum :=
  let cs := s.data.dropWhile (fun c => isJsSpace c)
  let signAndRest : Bool × List Char :=
    match cs with
    | '-' :: rest => (true, rest)
    | '+' :: rest => (false, rest)
    | _ => (false, cs)
  let cs1 := signAndRest.2
  let intPart := cs1.takeWhile Char.isDigit
  let afterInt := cs1.dropWhile Char.isDigit
  let fracPart :=
    match afterInt with
    | '.' :: r => r.takeWhile Char.isDigit
    | _ => []
  if intPart.isEmpty && fracPart.isEmpty then none
  else some ⟨signAndRest.1, digitsToNat intPart, digitsToNat fracPart, fracPart.length⟩

/-- Numeric value of a parsed decimal numeral. -/
def ParsedNum.val (p : ParsedNum) : Rat :=
  (if p.neg then -1 else 1) *
    ((p.intVal : Rat) + (p.fracVal : Rat) / (10 : Rat) ^ p.fracLen)

/-- Model of JS parseFloat; none models NaN. -/
def jsParseFloat (s : String) : Option Rat :=
  (parseDecimal s).map ParsedNum.val

/-- Two-digit zero-padded decimal rendering of a remainder below 100. -/
def natPad2 (n : Nat) : String :=
  if n < 10 then "0" ++ toString n else toString n

/-- Magnitude of a number scaled by a power of ten and rounded half up, as
prescribed for JS Number.prototype.toFixed. -/
def ratScaleRound (x : Rat) (f : Nat) : Nat :=
  (|x| * (10 : Rat) ^ f + 1/2).floor.toNat

/-- Model of JS Number.prototype.toFixed(0): round the magnitude half up,
prepend the sign of the input. -/
def jsToFixed0 (x : Rat) : String :=
  (if x < 0 then "-" else "") ++ toString (ratScaleRound x 0)

/-- Model of JS Number.prototype.toFixed(2): round the magnitude times 100
half up, render with two decimal places, prepend the sign. -/
def jsToFixed2 (x : Rat) : String :=
  let scaled := ratScaleRound x 2
  (if x < 0 then "-" else "") ++ toString (scaled / 100) ++ "." ++ natPad2 (scaled % 100)

/-- Embedding of formatPercentage (table-script.tsx lines 177-180). -/
def formatPercentage (value : Option Rat) : String :=
  match value with
  | none => "0%"
  | some v => jsToFixed0 (v * 100) ++ "%"

/-- Embedding of formatCurrency (table-script.tsx lines 182-185). -/
def formatCurrency (value : Option Rat) : String :=
  match value with
  | none => "0.00 EUR"
  | some v => jsToFixed2 v ++ " EUR"

/-- COLORS.utilization.high from the source constants. -/
def colorUtilizationHigh : String := "#2e7d32"

/-- COLORS.utilization.medium from the source constants. -/
def colorUtilizationMedium : String := "#ed6c02"

/-- COLORS.utilization.low from the source constants. -/
def colorUtilizationLow : String := "#d32f2f"

/-- COLORS.earnings.positive from the source constants. -/
def colorEarningsPositive : String := "#2e7d32"

/-- COLORS.earnings.negative from the source constants. -/
def colorEarningsNegative : String := "#d32f2f"

/-- COLORS.neutral from the source constants. -/
def colorNeutral : String := "#666"

/-- UTILIZATION_THRESHOLDS.HIGH from the source constants. -/
def THRESHOLD_HIGH : Rat := 80

/-- UTILIZATION_THRESHOLDS.MEDIUM from the source constants. -/
def THRESHOLD_MEDIUM : Rat := 50

/-- Embedding of getUtilizationColor (table-script.tsx lines 187-193). -/
def getUtilizationColor (percentageString : String) : String :=
  match jsParseFloat percentageString with
  | none => colorNeutral
  | some numValue =>
    if THRESHOLD_HIGH ≤ numValue then colorUtilizationHigh
    else if THRESHOLD_MEDIUM ≤ numValue then colorUtilizationMedium
    else colorUtilizationLow

/-- Characters kept by the replace regex in getEarningsColor: digits, dot,
and hyphen-minus. -/
def keepEarningsChar (c : Char) : Bool :=
  c.isDigit || c == '.' || c == '-'

/-- Embedding of getEarningsColor (table-script.tsx lines 195-199). -/
def getEarningsColor (currencyString : String) : String :=
  match jsParseFloat (String.mk (currencyString.data.filter keepEarningsChar)) with
  | none => colorNeutral
  | some numValue =>
    if 0 ≤ numValue then colorEarningsPositive else colorEarningsNegative

/-- Modelled from the spec: one entry of lastThreeMonthsIndividually, a
month label with a numeric-string utilisation rate (the types module is
not in the sources; the shape follows section 3 of the spec and the
field accesses in table-script.tsx). -/
structure WorkMonth where
  month : String
  utilisationRate : String
deriving DecidableEq

/-- Modelled from the spec: one entry of quarterEarnings, a quarter label
with a numeric-string earnings figure that may be absent. -/
structure QuarterEarning where
  name : String
  earnings : Option String
deriving DecidableEq

/-- Modelled from the spec: one monthly cost entry, a "YYYY-MM" month label
with a numeric-string costs figure that may be absent. -/
structure CostEntry where
  month : String
  costs : Option String
deriving DecidableEq

/-- Modelled from the spec: the optional workforceUtilisation payload. -/
structure WorkforceUtilisation where
  utilisationRateLastTwelveMonths : Option String
  utilisationRateYearToDate : Option String
  lastThreeMonthsIndividually : Option (List WorkMonth)
  quarterEarnings : Option (List QuarterEarning)
deriving DecidableEq

/-- Modelled from the spec: the cost table, carried under one of two
alternative field names (either may hold the array). -/
structure CostsByMonth where
  potentialEarningsByMonth : Option (List CostEntry)
  costsByMonth : Option (List CostEntry)
deriving DecidableEq

/-- Modelled from the spec: a resolved role payload (employee or external). -/
structure Entity where
  status : Option String
  firstname : String
  lastname : String
  workforceUtilisation : Option WorkforceUtilisation
  costsByMonth : Option CostsByMonth
deriving DecidableEq

/-- Modelled from the spec: one source record with its two alternative role
fields (SourceDataType). -/
structure SourceRecord where
  employees : Option Entity
  externals : Option Entity
deriving DecidableEq

/-- JS or on two object-valued operands: objects and arrays are always
truthy, so the left operand wins whenever it is present. -/
def jsOrObj {α : Type} (a b : Option α) : Option α :=
  match a with
  | some x => some x
  | none => b

/-- JS or on a string-valued operand with a string default: the empty
string is falsy, so it also falls through to the default. -/
def jsOrStr (v : Option String) (d : String) : String :=
  match v with
  | some s => if s == "" then d else s
  | none => d

/-- Resolution row.employees or row.externals used throughout the source. -/
def resolveEntity (row : SourceRecord) : Option Entity :=
  jsOrObj row.employees row.externals

/-- MONTH_ORDER lookup (table-script.tsx lines 30-33) combined with the
or-zero default applied at its use site: unknown labels map to 0. -/
def MONTH_ORDER (m : String) : Nat :=
  if m == "January" then 1 else if m == "February" then 2
  else if m == "March" then 3 else if m == "April" then 4
  else if m == "May" then 5 else if m == "June" then 6
  else if m == "July" then 7 else if m == "August" then 8
  else if m == "September" then 9 else if m == "October" then 10
  else if m == "November" then 11 else if m == "December" then 12
  else 0

/-- JS Set.add: append the element unless it is already present. -/
def setAdd (l : List String) (m : String) : List String :=
  if m ∈ l then l else l ++ [m]

/-- Inner forEach of getAvailableMonths: add every truthy month label. -/
def addMonths (acc : List String) (items : List WorkMonth) : List String :=
  items.foldl (fun a i => if i.month == "" then a else setAdd a i.month) acc

/-- Body of the outer forEach of getAvailableMonths for one record: the
optional chain down to lastThreeMonthsIndividually, whose entries are
added when the chain is present. -/
def recordMonths (acc : List String) (row : SourceRecord) : List String :=
  match ((resolveEntity row).bind (fun e => e.workforceUtilisation)).bind
      (fun w => w.lastThreeMonthsIndividually) with
  | none => acc
  | some items => addMonths acc items

/-- The Set built by getAvailableMonths, in insertion order. -/
def collectMonths (data : List SourceRecord) : List String :=
  data.foldl recordMonths []

/-- Embedding of getAvailableMonths (table-script.tsx lines 214-225): the
JS stable sort by comparator is modelled by the stable mergeSort. -/
def getAvailableMonths (data : List SourceRecord) : List String :=
  (collectMonths data).mergeSort (fun a b => MONTH_ORDER a ≤ MONTH_ORDER b)

/-- Model of JS toLowerCase at the basic-latin level; written via the
character list so that it stays kernel-computable. -/
def jsToLower (s : String) : String :=
  String.mk (s.data.map Char.toLower)

/-- Embedding of getMonthUtilization (table-script.tsx lines 202-211). -/
def getMonthUtilization (lastThreeMonths : Option (List WorkMonth))
    (monthName : String) : Option Rat :=
  match lastThreeMonths with
  | none => none
  | some l =>
    match l.find? (fun m => jsToLower m.month == jsToLower monthName) with
    | none => none
    | some monthData => jsParseFloat monthData.utilisationRate

/-- Defining equation of getMonthUtilization on a present array. -/
theorem getMonthUtilization_some (xs : List WorkMonth) (monthName : String) :
    getMonthUtilization (some xs) monthName =
      match xs.find? (fun m => jsToLower m.month == jsToLower monthName) with
      | none => none
      | some monthData => jsParseFloat monthData.utilisationRate := rfl

/-- CURRENT_MONTH target-period constant from the source. -/
def CURRENT_MONTH : String := "2024-07"

/-- Costs block of calculateNetEarningsPrevMonth (lines 229-237): some 0
when no array or no entry for the target month is found, else the parse
of the entry's costs (with the or-"0" fallback); none models NaN. -/
def calcCosts (entity : Entity) : Option Rat :=
  let costsByMonth := jsOrObj (entity.costsByMonth.bind (fun c => c.potentialEarningsByMonth))
    (entity.costsByMonth.bind (fun c => c.costsByMonth))
  match costsByMonth with
  | none => some 0
  | some arr =>
    match arr.find? (fun m => m.month == CURRENT_MONTH) with
    | none => some 0
    | some currentMonthData => jsParseFloat (jsOrStr currentMonthData.costs "0")

/-- Revenue block of calculateNetEarningsPrevMonth (lines 239-247): some 0
when no quarterEarnings or no Q3 entry exists, else the parse of its
earnings (with the or-"0" fallback) divided by 3; none models NaN. -/
def calcRevenue (entity : Entity) : Option Rat :=
  match entity.workforceUtilisation.bind (fun w => w.quarterEarnings) with
  | none => some 0
  | some qs =>
    match qs.find? (fun q => q.name == "Q3") with
    | none => some 0
    | some q3 => (jsParseFloat (jsOrStr q3.earnings "0")).map (fun e => e / 3)

/-- JS subtraction with NaN propagation. -/
def jsSub (a b : Option Rat) : Option Rat :=
  match a, b with
  | some x, some y => some (x - y)
  | _, _ => none

/-- Embedding of calculateNetEarningsPrevMonth (table-script.tsx lines
228-250). -/
def calculateNetEarningsPrevMonth (entity : Entity) : Option Rat :=
  jsSub (calcRevenue entity) (calcCosts entity)

/-- Output rows are JS objects: association lists in insertion order. -/
abbrev Row := List (String × String)

/-- Property read on a row object. -/
def jsObjGet : Row → String → Option String
  | [], _ => none
  | (k, v) :: rest, key => if k == key then some v else jsObjGet rest key

/-- Property assignment on a row object: update in place when the key
exists, append otherwise (JS insertion-order semantics). -/
def jsObjSet : Row → String → String → Row
  | [], key, v => [(key, v)]
  | (k, w) :: rest, key, v =>
    if k == key then (k, v) :: rest else (k, w) :: jsObjSet rest key v

/-- Keys of a row object, in order. -/
def rowKeys (o : Row) : List String := o.map (fun p => p.1)

/-- Conditional parse used for past12Months and y2d: a truthy (non-empty)
string is parsed, anything else yields null. -/
def jsTruthyParse (v : Option String) : Option Rat :=
  match v with
  | none => none
  | some s => if s == "" then none else jsParseFloat s

/-- Object literal of lines 267-272: the four fixed cells of a row. -/
def entityBaseRow (entity : Entity) (isExternal : Bool) : Row :=
  [("person", entity.firstname ++ " " ++ entity.lastname ++
      (if isExternal then " (External)" else "")),
   ("past12Months", formatPercentage (jsTruthyParse
      (entity.workforceUtilisation.bind (fun w => w.utilisationRateLastTwelveMonths)))),
   ("y2d", formatPercentage (jsTruthyParse
      (entity.workforceUtilisation.bind (fun w => w.utilisationRateYearToDate)))),
   ("netEarningsPrevMonth", formatCurrency (calculateNetEarningsPrevMonth entity))]

/-- One dynamic month cell of lines 276-277: the formatted lookup of the
entity's individual months at that month label. -/
def entityMonthCell (entity : Entity) (month : String) : String :=
  formatPercentage (getMonthUtilization
    (entity.workforceUtilisation.bind (fun w => w.lastThreeMonthsIndividually)) month)

/-- Row built from a resolved entity: the object literal of lines 267-272
followed by the per-month assignments of lines 275-278. -/
def buildEntityRow (monthsToMap : List String) (entity : Entity)
    (isExternal : Bool) : Row :=
  monthsToMap.foldl (fun row month => jsObjSet row month (entityMonthCell entity month))
    (entityBaseRow entity isExternal)

/-- Body of the map in transformToTableData (lines 259-281): null when the
record has no resolvable entity. -/
def rowFromRecord (monthsToMap : List String) (dataRow : SourceRecord) : Option Row :=
  match resolveEntity dataRow with
  | none => none
  | some entity => some (buildEntityRow monthsToMap entity dataRow.externals.isSome)

/-- Active filter of transformToTableData (lines 255-258). -/
def activeRecord (dataRow : SourceRecord) : Bool :=
  match resolveEntity dataRow with
  | none => false
  | some entity => entity.status == some "active"

/-- Embedding of transformToTableData (table-script.tsx lines 253-283):
filter to active records, map to rows, drop the null rows. -/
def transformToTableData (dataRows : List SourceRecord)
    (monthsToMap : List String) : List Row :=
  (((dataRows.filter activeRecord).map (rowFromRecord monthsToMap)).filterMap id)

/-- Costs for the target period as the claim words them: parse the costs of
the entry whose month string-equals the target period; an unparsable or
missing entry contributes 0.  Used to compare the code against the claim. -/
def specCosts (entity : Entity) : Rat :=
  match (jsOrObj (entity.costsByMonth.bind (fun c => c.potentialEarningsByMonth))
      (entity.costsByMonth.bind (fun c => c.costsByMonth))).bind
      (fun arr => arr.find? (fun m => m.month == CURRENT_MONTH)) with
  | none => 0
  | some entry =>
    match entry.costs with
    | none => 0
    | some s => (jsParseFloat s).getD 0

/-- Revenue as the claim words it: the parsed earnings of the Q3 quarter
entry divided by 3; missing or unparsable contributes 0. -/
def specRevenue (entity : Entity) : Rat :=
  match (entity.workforceUtilisation.bind (fun w => w.quarterEarnings)).bind
      (fun qs => qs.find? (fun q => q.name == "Q3")) with
  | none => 0
  | some q3 =>
    (match q3.earnings with
     | none => 0
     | some s => (jsParseFloat s).getD 0) / 3

/-- Net earnings as the claim words them: always a finite number. -/
def specNetEarnings (entity : Entity) : Rat :=
  specRevenue entity - specCosts entity

/-- A month label occurs in one record's individual-months data. -/
def rowHasMonth (r : SourceRecord) (m : String) : Prop :=
  ∃ items, ((resolveEntity r).bind (fun e => e.workforceUtilisation)).bind
      (fun w => w.lastThreeMonthsIndividually) = some items
    ∧ ∃ i ∈ items, i.month = m

/-- A month label occurs in some record's individual-months data. -/
def monthOccursIn (data : List SourceRecord) (m : String) : Prop :=
  ∃ r ∈ data, rowHasMonth r m

/-- The four fixed column keys of every row object, in insertion order. -/
def baseKeys : List String :=
  ["person", "past12Months", "y2d", "netEarningsPrevMonth"]

/-- Fixture: the entity of the net-earnings round-trip example. -/
def entityRoundTrip : Entity :=
  ⟨some "active", "Rt", "Ex",
   some ⟨none, none, none, some [⟨"Q3", some "300"⟩]⟩,
   some ⟨none, some [⟨"2024-07", some "100"⟩]⟩⟩

/-- Fixture: an entity whose target-month costs string is unparsable. -/
def entityBadCosts : Entity :=
  ⟨some "active", "Bad", "Costs", none,
   some ⟨none, some [⟨"2024-07", some "abc"⟩]⟩⟩

/-- Fixture: Ana Lee with no nested data. -/
def entityAna : Entity := ⟨some "active", "Ana", "Lee", none, none⟩

/-- Fixture: Ana Lee populated under the external role. -/
def recordAnaExternal : SourceRecord := ⟨none, some entityAna⟩

/-- Fixture: Ana Lee populated under the internal role. -/
def recordAnaInternal : SourceRecord := ⟨some entityAna, none⟩

/-- Fixture: employee payload for the double-role record. -/
def entityEmpOne : Entity := ⟨some "active", "Emp", "One", none, none⟩

/-- Fixture: external payload for the double-role record. -/
def entityExtTwo : Entity := ⟨some "inactive", "Ext", "Two", none, none⟩

/-- Fixture: a record violating mutual exclusivity, both roles populated. -/
def recordBoth : SourceRecord := ⟨some entityEmpOne, some entityExtTwo⟩

/-- Fixture: a record whose individual months are March then January. -/
def dataMarchJan : List SourceRecord :=
  [⟨some ⟨some "active", "M", "J",
     some ⟨none, none, some [⟨"March", "0.5"⟩, ⟨"January", "0.7"⟩], none⟩,
     none⟩, none⟩]

/-- Fixture: an active employee with one individual month, January. -/
def entityJan : Entity :=
  ⟨some "active", "Ana", "Lee",
   some ⟨none, none, some [⟨"January", "0.9"⟩], none⟩, none⟩

/-- Fixture: the single-record data set around entityJan. -/
def dataJan : List SourceRecord := [⟨some entityJan, none⟩]

/-- Fixture: the row the assembler produces for entityJan with month
column January. -/
def rowJan : Row :=
  [("person", "Ana Lee"), ("past12Months", "0%"), ("y2d", "0%"),
   ("netEarningsPrevMonth", "0.00 EUR"), ("January", "90%")]

section EvaluationHelpers

/-- Rounding helper: the scaled magnitude is n when n is within the half
open unit interval around the scaled value plus one half. -/
theorem ratScaleRound_eq (x : Rat) (f : Nat) (n : Nat)
    (h1 : (n : Rat) ≤ |x| * (10 : Rat) ^ f + 1/2)
    (h2 : |x| * (10 : Rat) ^ f + 1/2 < (n : Rat) + 1) :
    ratScaleRound x f = n := by
  unfold ratScaleRound
  have hb : (|x| * (10 : Rat) ^ f + 1/2).floor = Int.floor (|x| * (10 : Rat) ^ f + 1/2) := rfl
  have hfl : Int.floor (|x| * (10 : Rat) ^ f + 1/2) = (n : Int) := by
    rw [Int.floor_eq_iff]
    constructor
    · exact_mod_cast h1
    · push_cast
      exact h2
  rw [hb, hfl]
  exact Int.toNat_natCast n

/-- Evaluation shape of formatPercentage on a nonnegative value. -/
theorem formatPercentage_eval (v : Rat) (n : Nat) (h0 : ¬ v * 100 < 0)
    (h1 : (n : Rat) ≤ |v * 100| * (10 : Rat) ^ 0 + 1/2)
    (h2 : |v * 100| * (10 : Rat) ^ 0 + 1/2 < (n : Rat) + 1) :
    formatPercentage (some v) = toString n ++ "%" := by
  show jsToFixed0 (v * 100) ++ "%" = toString n ++ "%"
  unfold jsToFixed0
  rw [if_neg h0, ratScaleRound_eq (v * 100) 0 n h1 h2]
  simp

/-- Evaluation shape of formatCurrency on a nonnegative value. -/
theorem formatCurrency_eval (v : Rat) (n : Nat) (h0 : ¬ v < 0)
    (h1 : (n : Rat) ≤ |v| * (10 : Rat) ^ 2 + 1/2)
    (h2 : |v| * (10 : Rat) ^ 2 + 1/2 < (n : Rat) + 1) :
    formatCurrency (some v) = toString (n / 100) ++ "." ++ natPad2 (n % 100) ++ " EUR" := by
  show jsToFixed2 v ++ " EUR" = _
  unfold jsToFixed2
  rw [if_neg h0, ratScaleRound_eq v 2 n h1 h2]
  simp

/-- Concrete evaluation: formatting zero currency yields the sentinel. -/
theorem formatCurrency_zero : formatCurrency (some 0) = "0.00 EUR" := by
  rw [formatCurrency_eval 0 0 (by norm_num) (by norm_num) (by norm_num)]
  decide

/-- Concrete evaluation of the parse of the 0.9 rate string. -/
theorem jsParseFloat_09 : jsParseFloat "0.9" = some (9/10) := by
  unfold jsParseFloat
  rw [show parseDecimal "0.9" = some ⟨false, 0, 9, 1⟩ from by decide]
  simp [ParsedNum.val]

/-- Concrete evaluation of the parse of the 0.75 rate string. -/
theorem jsParseFloat_075 : jsParseFloat "0.75" = some (3/4) := by
  unfold jsParseFloat
  rw [show parseDecimal "0.75" = some ⟨false, 0, 75, 2⟩ from by decide]
  simp [ParsedNum.val]
  norm_num

/-- Concrete evaluation of the parse of the quarter earnings string. -/
theorem jsParseFloat_300 : jsParseFloat "300" = some 300 := by
  unfold jsParseFloat
  rw [show parseDecimal "300" = some ⟨false, 300, 0, 0⟩ from by decide]
  simp [ParsedNum.val]

/-- Concrete evaluation of the parse of the costs string. -/
theorem jsParseFloat_100 : jsParseFloat "100" = some 100 := by
  unfold jsParseFloat
  rw [show parseDecimal "100" = some ⟨false, 100, 0, 0⟩ from by decide]
  simp [ParsedNum.val]

/-- Concrete evaluation of the parse of the zero fallback string. -/
theorem jsParseFloat_zeroStr : jsParseFloat "0" = some 0 := by
  unfold jsParseFloat
  rw [show parseDecimal "0" = some ⟨false, 0, 0, 0⟩ from by decide]
  simp [ParsedNum.val]

/-- Rounding bound: the toFixed scaling is within one half of the scaled
magnitude. -/
theorem ratScaleRound_bound (x : Rat) (f : Nat) :
    |(ratScaleRound x f : Rat) - |x| * (10 : Rat) ^ f| ≤ 1/2 := by
  have hy0 : (0 : Rat) ≤ |x| * (10 : Rat) ^ f := by positivity
  have hfl0 : 0 ≤ Int.floor (|x| * (10 : Rat) ^ f + 1/2) :=
    Int.floor_nonneg.mpr (by linarith)
  have hle := Int.floor_le (|x| * (10 : Rat) ^ f + 1/2)
  have hlt := Int.lt_floor_add_one (|x| * (10 : Rat) ^ f + 1/2)
  have hcast : ((ratScaleRound x f : Nat) : Rat) =
      ((Int.floor (|x| * (10 : Rat) ^ f + 1/2) : Int) : Rat) := by
    show (((|x| * (10 : Rat) ^ f + 1/2).floor.toNat : Nat) : Rat) = _
    exact_mod_cast congrArg (fun z : Int => (z : Rat)) (Int.toNat_of_nonneg hfl0)
  rw [hcast, abs_sub_le_iff]
  constructor
  · linarith
  · linarith

end EvaluationHelpers

/-- claim C1 (counterexample): with a cost entry for the target period
whose costs string is unparsable, the calculator returns NaN (modelled
none), not the finite value revenue minus costs the claim prescribes,
which here would be 0. -/
theorem claim_C1_counterexample :
    calculateNetEarningsPrevMonth entityBadCosts = none
    ∧ specNetEarnings entityBadCosts = 0 := by
  constructor
  · decide
  · have h : specNetEarnings entityBadCosts = (0 : Rat) - 0 := rfl
    rw [h]
    norm_num

/-- Bridge: a successful costs computation agrees with the claim-worded
costs (parse-or-zero of the entry for the target period). -/
theorem calcCosts_spec (e : Entity) (c : Rat) (h : calcCosts e = some c) :
    specCosts e = c := by
  unfold calcCosts at h
  unfold specCosts
  cases hcb : jsOrObj (e.costsByMonth.bind (fun x => x.potentialEarningsByMonth))
      (e.costsByMonth.bind (fun x => x.costsByMonth)) with
  | none =>
    rw [hcb] at h
    simp at h
    simp [hcb, h]
  | some arr =>
    rw [hcb] at h
    simp only [] at h
    cases hf : arr.find? (fun m => m.month == CURRENT_MONTH) with
    | none =>
      rw [hf] at h
      simp at h
      simp [hcb, hf, h]
    | some entry =>
      rw [hf] at h
      simp only [] at h
      simp [hcb, hf]
      cases hco : entry.costs with
      | none =>
        rw [hco] at h
        rw [show jsOrStr none "0" = "0" from rfl, jsParseFloat_zeroStr] at h
        simp at h
        simp [h.symm]
      | some s =>
        rw [hco] at h
        by_cases hs : s == ""
        · rw [show jsOrStr (some s) "0" = if s == "" then "0" else s from rfl,
            if_pos hs, jsParseFloat_zeroStr] at h
          simp at h
          have hse : s = "" := eq_of_beq hs
          simp [hse, show jsParseFloat "" = none from rfl, h.symm]
        · rw [show jsOrStr (some s) "0" = if s == "" then "0" else s from rfl,
            if_neg hs] at h
          simp [h]

/-- Bridge: a successful revenue computation agrees with the claim-worded
revenue (parse-or-zero of the Q3 entry, divided by 3). -/
theorem calcRevenue_spec (e : Entity) (r : Rat) (h : calcRevenue e = some r) :
    specRevenue e = r := by
  unfold calcRevenue at h
  unfold specRevenue
  cases hq : e.workforceUtilisation.bind (fun w => w.quarterEarnings) with
  | none =>
    rw [hq] at h
    simp at h
    simp [hq, h]
  | some qs =>
    rw [hq] at h
    simp only [] at h
    cases hf : qs.find? (fun q => q.name == "Q3") with
    | none =>
      rw [hf] at h
      simp at h
      simp [hq, hf, h]
    | some q3 =>
      rw [hf] at h
      simp only [] at h
      simp [hq, hf]
      cases hco : q3.earnings with
      | none =>
        rw [hco] at h
        rw [show jsOrStr none "0" = "0" from rfl, jsParseFloat_zeroStr] at h
        simp at h
        rw [h.symm]
        norm_num
      | some s =>
        rw [hco] at h
        by_cases hs : s == ""
        · rw [show jsOrStr (some s) "0" = if s == "" then "0" else s from rfl,
            if_pos hs, jsParseFloat_zeroStr] at h
          simp at h
          have hse : s = "" := eq_of_beq hs
          rw [h.symm]
          simp [hse, show jsParseFloat "" = none from rfl]
        · rw [show jsOrStr (some s) "0" = if s == "" then "0" else s from rfl,
            if_neg hs] at h
          simp at h
          obtain ⟨v, hv, hv3⟩ := h
          simp [hv]
          rw [hv3]

/-- claim C1 (amended): the calculator always returns revenue minus costs
in the sense of the claim whenever both the costs and the revenue parse
steps produce a number; a present but unparsable numeric string instead
yields NaN (modelled as the absent result), as the counterexample shows. -/
theorem claim_C1 (entity : Entity) (h1 : (calcCosts entity).isSome)
    (h2 : (calcRevenue entity).isSome) :
    calculateNetEarningsPrevMonth entity = some (specNetEarnings entity) := by
  obtain ⟨c, hc⟩ := Option.isSome_iff_exists.mp h1
  obtain ⟨r, hr⟩ := Option.isSome_iff_exists.mp h2
  have hs : calculateNetEarningsPrevMonth entity = jsSub (calcRevenue entity) (calcCosts entity) := rfl
  rw [hs, hc, hr]
  show some (r - c) = some (specNetEarnings entity)
  rw [show specNetEarnings entity = specRevenue entity - specCosts entity from rfl,
    calcCosts_spec entity c hc, calcRevenue_spec entity r hr]

/-- claim C1 (witness): both hypotheses hold at the round-trip entity and
the amended equation evaluates there. -/
theorem claim_C1_witness :
    calculateNetEarningsPrevMonth entityRoundTrip = some (specNetEarnings entityRoundTrip) :=
  claim_C1 entityRoundTrip (by decide) (by decide)

/-- claim C5: the formatters are total; absent or NaN input yields the
sentinels "0%" and "0.00 EUR"; any other numeric input is scaled by 100
and rounded to zero decimals with a percent suffix, respectively rendered
as a two-decimal fixed-point amount with the EUR suffix. -/
theorem claim_C5 :
    formatPercentage none = "0%" ∧ formatCurrency none = "0.00 EUR"
    ∧ (∀ v : Rat, ∃ n : Nat,
        formatPercentage (some v) =
          (if v * 100 < 0 then "-" else "") ++ toString n ++ "%"
        ∧ abs ((n : Rat) - abs (v * 100)) ≤ 1/2)
    ∧ (∀ v : Rat, ∃ n : Nat,
        formatCurrency (some v) =
          (if v < 0 then "-" else "") ++ toString (n / 100) ++ "." ++
            natPad2 (n % 100) ++ " EUR"
        ∧ abs ((n : Rat) / 100 - abs v) ≤ 1/200) := by
  refine ⟨rfl, rfl, ?_, ?_⟩
  · intro v
    refine ⟨ratScaleRound (v * 100) 0, rfl, ?_⟩
    have hb := ratScaleRound_bound (v * 100) 0
    simpa using hb
  · intro v
    refine ⟨ratScaleRound v 2, rfl, ?_⟩
    have hb := ratScaleRound_bound v 2
    obtain ⟨b1, b2⟩ := abs_sub_le_iff.mp hb
    norm_num at b1 b2
    rw [abs_sub_le_iff]
    constructor
    · linarith
    · linarith

/-- claim C6: the round-trip example entity yields revenue 100, costs 100,
net earnings 0, rendered as the string 0.00 EUR. -/
theorem claim_C6 :
    calcRevenue entityRoundTrip = some 100
    ∧ calcCosts entityRoundTrip = some 100
    ∧ calculateNetEarningsPrevMonth entityRoundTrip = some 0
    ∧ formatCurrency (calculateNetEarningsPrevMonth entityRoundTrip) = "0.00 EUR" := by
  have hr : calcRevenue entityRoundTrip = (jsParseFloat "300").map (fun e => e / 3) := rfl
  rw [jsParseFloat_300] at hr
  simp at hr
  have hr2 : calcRevenue entityRoundTrip = some 100 := by
    rw [hr]
    norm_num
  have hc : calcCosts entityRoundTrip = jsParseFloat "100" := rfl
  rw [jsParseFloat_100] at hc
  have hnet : calculateNetEarningsPrevMonth entityRoundTrip = some 0 := by
    have hdef : calculateNetEarningsPrevMonth entityRoundTrip =
        jsSub (calcRevenue entityRoundTrip) (calcCosts entityRoundTrip) := rfl
    rw [hdef, hr2, hc]
    show some ((100 : Rat) - 100) = some 0
    norm_num
  refine ⟨hr2, hc, hnet, ?_⟩
  rw [hnet, formatCurrency_zero]

/-- claim C7: both classifiers are total and deterministic; utilization is
neutral on an unparsable display string and otherwise tiered at 80 and
50; earnings strips to digits, dot and minus, is neutral on unparsable,
and otherwise classifies by sign with zero counted positive. -/
theorem claim_C7 (s : String) :
    (jsParseFloat s = none → getUtilizationColor s = colorNeutral)
    ∧ (∀ v : Rat, jsParseFloat s = some v →
        getUtilizationColor s =
          if (80 : Rat) ≤ v then colorUtilizationHigh
          else if (50 : Rat) ≤ v then colorUtilizationMedium
          else colorUtilizationLow)
    ∧ (jsParseFloat (String.mk (s.data.filter keepEarningsChar)) = none →
        getEarningsColor s = colorNeutral)
    ∧ (∀ v : Rat, jsParseFloat (String.mk (s.data.filter keepEarningsChar)) = some v →
        getEarningsColor s =
          if (0 : Rat) ≤ v then colorEarningsPositive else colorEarningsNegative) := by
  refine ⟨?_, ?_, ?_, ?_⟩
  · intro h
    simp [getUtilizationColor, h]
  · intro v h
    simp [getUtilizationColor, h, THRESHOLD_HIGH, THRESHOLD_MEDIUM]
  · intro h
    simp [getEarningsColor, h]
  · intro v h
    simp [getEarningsColor, h]

/-- claim C7 (witness): the classifier hypotheses hold at the concrete
display strings 85 percent and minus 3.50 EUR. -/
theorem claim_C7_witness :
    getUtilizationColor "85%" = colorUtilizationHigh
    ∧ getEarningsColor "-3.50 EUR" = colorEarningsNegative := by
  have h85 : jsParseFloat "85%" = some 85 := by
    unfold jsParseFloat
    rw [show parseDecimal "85%" = some ⟨false, 85, 0, 0⟩ from by decide]
    simp [ParsedNum.val]
  have hm : jsParseFloat (String.mk (("-3.50 EUR").data.filter keepEarningsChar)) =
      some (-(7/2)) := by
    unfold jsParseFloat
    rw [show parseDecimal (String.mk (("-3.50 EUR").data.filter keepEarningsChar)) =
      some ⟨true, 3, 50, 2⟩ from by decide]
    simp [ParsedNum.val]
    norm_num
  constructor
  · rw [(claim_C7 "85%").2.1 85 h85]
    norm_num
  · rw [(claim_C7 "-3.50 EUR").2.2.2 (-(7/2)) hm]
    norm_num

/-- claim C9: the row assembled for Ana Lee under the external role has
person Ana Lee (External); the same fields under the internal role give
person Ana Lee. -/
theorem claim_C9 :
    (transformToTableData [recordAnaExternal] []).map (fun r => jsObjGet r "person")
      = [some "Ana Lee (External)"]
    ∧ (transformToTableData [recordAnaInternal] []).map (fun r => jsObjGet r "person")
      = [some "Ana Lee"] := by
  constructor
  · rfl
  · rfl

section MonthDiscoveryLemmas

/-- Membership after a set insertion. -/
theorem mem_setAdd (l : List String) (m x : String) :
    x ∈ setAdd l m ↔ x ∈ l ∨ x = m := by
  by_cases h : m ∈ l
  · rw [setAdd, if_pos h]
    constructor
    · exact Or.inl
    · rintro (h1 | rfl)
      · exact h1
      · exact h
  · rw [setAdd, if_neg h]
    simp

/-- Set insertion preserves distinctness. -/
theorem nodup_setAdd (l : List String) (m : String) (h : l.Nodup) :
    (setAdd l m).Nodup := by
  by_cases hm : m ∈ l
  · rw [setAdd, if_pos hm]
    exact h
  · rw [setAdd, if_neg hm]
    simp [List.nodup_append, h, hm]

/-- Membership after folding one individual-months array into the set. -/
theorem mem_addMonths (items : List WorkMonth) (acc : List String) (x : String) :
    x ∈ addMonths acc items ↔ x ∈ acc ∨ (x ≠ "" ∧ ∃ i ∈ items, i.month = x) := by
  induction items generalizing acc with
  | nil => simp [addMonths]
  | cons i rest ih =>
    show x ∈ addMonths (if i.month == "" then acc else setAdd acc i.month) rest ↔ _
    rw [ih]
    by_cases hm : i.month == ""
    · rw [if_pos hm]
      have hie : i.month = "" := eq_of_beq hm
      constructor
      · rintro (h1 | ⟨hne, j, hj, hjx⟩)
        · exact Or.inl h1
        · exact Or.inr ⟨hne, j, List.mem_cons_of_mem i hj, hjx⟩
      · rintro (h1 | ⟨hne, j, hj, hjx⟩)
        · exact Or.inl h1
        · rcases List.mem_cons.mp hj with rfl | hj2
          · exact absurd (hjx.symm.trans hie) hne
          · exact Or.inr ⟨hne, j, hj2, hjx⟩
    · rw [if_neg hm, mem_setAdd]
      have hne0 : i.month ≠ "" := fun hh => hm (by simp [hh])
      constructor
      · rintro ((h1 | rfl) | ⟨hne, j, hj, hjx⟩)
        · exact Or.inl h1
        · exact Or.inr ⟨hne0, i, List.mem_cons_self i rest, rfl⟩
        · exact Or.inr ⟨hne, j, List.mem_cons_of_mem i hj, hjx⟩
      · rintro (h1 | ⟨hne, j, hj, hjx⟩)
        · exact Or.inl (Or.inl h1)
        · rcases List.mem_cons.mp hj with rfl | hj2
          · exact Or.inl (Or.inr hjx.symm)
          · exact Or.inr ⟨hne, j, hj2, hjx⟩

/-- Folding an individual-months array preserves distinctness. -/
theorem nodup_addMonths (items : List WorkMonth) (acc : List String)
    (h : acc.Nodup) : (addMonths acc items).Nodup := by
  induction items generalizing acc with
  | nil => exact h
  | cons i rest ih =>
    show (addMonths (if i.month == "" then acc else setAdd acc i.month) rest).Nodup
    by_cases hm : i.month == ""
    · rw [if_pos hm]
      exact ih acc h
    · rw [if_neg hm]
      exact ih _ (nodup_setAdd acc i.month h)

/-- Membership after folding one record into the set. -/
theorem mem_recordMonths (row : SourceRecord) (acc : List String) (x : String) :
    x ∈ recordMonths acc row ↔ x ∈ acc ∨ (x ≠ "" ∧ rowHasMonth row x) := by
  unfold recordMonths
  cases hc : ((resolveEntity row).bind (fun e => e.workforceUtilisation)).bind
      (fun w => w.lastThreeMonthsIndividually) with
  | none => simp [rowHasMonth, hc]
  | some items =>
    rw [mem_addMonths]
    simp [rowHasMonth, hc]

/-- Folding one record preserves distinctness. -/
theorem nodup_recordMonths (row : SourceRecord) (acc : List String)
    (h : acc.Nodup) : (recordMonths acc row).Nodup := by
  unfold recordMonths
  cases ((resolveEntity row).bind (fun e => e.workforceUtilisation)).bind
      (fun w => w.lastThreeMonthsIndividually) with
  | none => exact h
  | some items => exact nodup_addMonths items acc h

/-- Membership in the collected set, generalized over the accumulator. -/
theorem mem_collect_aux (data : List SourceRecord) (acc : List String) (x : String) :
    x ∈ data.foldl recordMonths acc ↔
      x ∈ acc ∨ (x ≠ "" ∧ ∃ r ∈ data, rowHasMonth r x) := by
  induction data generalizing acc with
  | nil => simp
  | cons r rest ih =>
    show x ∈ rest.foldl recordMonths (recordMonths acc r) ↔ _
    rw [ih, mem_recordMonths]
    constructor
    · rintro ((h1 | ⟨hne, hr⟩) | ⟨hne, r2, hr2, hhas⟩)
      · exact Or.inl h1
      · exact Or.inr ⟨hne, r, List.mem_cons_self r rest, hr⟩
      · exact Or.inr ⟨hne, r2, List.mem_cons_of_mem r hr2, hhas⟩
    · rintro (h1 | ⟨hne, r2, hr2, hhas⟩)
      · exact Or.inl (Or.inl h1)
      · rcases List.mem_cons.mp hr2 with rfl | hr3
        · exact Or.inl (Or.inr ⟨hne, hhas⟩)
        · exact Or.inr ⟨hne, r2, hr3, hhas⟩

/-- Membership in the collected month set. -/
theorem mem_collectMonths (data : List SourceRecord) (x : String) :
    x ∈ collectMonths data ↔ x ≠ "" ∧ monthOccursIn data x := by
  unfold collectMonths monthOccursIn
  rw [mem_collect_aux]
  simp

/-- The collected month set is distinct. -/
theorem nodup_collectMonths (data : List SourceRecord) :
    (collectMonths data).Nodup := by
  unfold collectMonths
  have aux : ∀ (l : List SourceRecord) (acc : List String), acc.Nodup →
      (l.foldl recordMonths acc).Nodup := by
    intro l
    induction l with
    | nil => exact fun acc h => h
    | cons r rest ih =>
      intro acc h
      exact ih (recordMonths acc r) (nodup_recordMonths r acc h)
  exact aux data [] List.nodup_nil

/-- The discovered month list is a permutation of the collected set. -/
theorem getAvailableMonths_perm (data : List SourceRecord) :
    (getAvailableMonths data).Perm (collectMonths data) :=
  List.mergeSort_perm (collectMonths data) _

/-- Membership in the discovered month list. -/
theorem mem_getAvailableMonths (data : List SourceRecord) (x : String) :
    x ∈ getAvailableMonths data ↔ x ≠ "" ∧ monthOccursIn data x := by
  rw [(getAvailableMonths_perm data).mem_iff]
  exact mem_collectMonths data x

/-- The discovered month list is distinct. -/
theorem nodup_getAvailableMonths (data : List SourceRecord) :
    (getAvailableMonths data).Nodup :=
  ((getAvailableMonths_perm data).nodup_iff).mpr (nodup_collectMonths data)

/-- The discovered month list is sorted by the month order lookup. -/
theorem sorted_getAvailableMonths (data : List SourceRecord) :
    (getAvailableMonths data).Pairwise
      (fun a b => MONTH_ORDER a ≤ MONTH_ORDER b) := by
  have h := @List.sorted_mergeSort String
    (fun a b : String => decide (MONTH_ORDER a ≤ MONTH_ORDER b))
    (fun a b c hab hbc => by
      simp only [decide_eq_true_eq] at hab hbc ⊢
      exact le_trans hab hbc)
    (fun a b => by
      simp only [Bool.or_eq_true, decide_eq_true_eq]
      exact Nat.le_total (MONTH_ORDER a) (MONTH_ORDER b))
    (collectMonths data)
  exact h.imp (fun hab => of_decide_eq_true hab)

end MonthDiscoveryLemmas

/-- claim C3: month discovery returns exactly the distinct non-empty month
labels present in the data, sorted by the fixed month order with unknown
labels keyed 0 and hence first, and on the March-January example yields
January then March. -/
theorem claim_C3 :
    (∀ data : List SourceRecord,
      (∀ m, m ∈ getAvailableMonths data ↔ (m ≠ "" ∧ monthOccursIn data m))
      ∧ (getAvailableMonths data).Nodup
      ∧ (getAvailableMonths data).Pairwise
          (fun a b => MONTH_ORDER a ≤ MONTH_ORDER b))
    ∧ getAvailableMonths dataMarchJan = ["January", "March"] := by
  constructor
  · intro data
    exact ⟨mem_getAvailableMonths data, nodup_getAvailableMonths data,
      sorted_getAvailableMonths data⟩
  · have h : collectMonths dataMarchJan = ["March", "January"] := by decide
    unfold getAvailableMonths
    rw [h]
    simp [List.mergeSort, List.splitInTwo, List.merge, MONTH_ORDER]

/-- claim C8: the per-month cell lookup matches case-insensitively (the
july entry answers a July lookup), the first matching entry in sequence
order wins, and a month with no matching entry yields absence, formatted
as the 0 percent sentinel. -/
theorem claim_C8 :
    (∀ (xs : List WorkMonth) (m : String),
      ((∀ i ∈ xs, jsToLower i.month ≠ jsToLower m) →
        getMonthUtilization (some xs) m = none
        ∧ formatPercentage (getMonthUtilization (some xs) m) = "0%")
      ∧ (∀ (i : WorkMonth) (rest : List WorkMonth), jsToLower i.month = jsToLower m →
          getMonthUtilization (some (i :: rest)) m = jsParseFloat i.utilisationRate)
      ∧ (∀ (i : WorkMonth) (rest : List WorkMonth), jsToLower i.month ≠ jsToLower m →
          getMonthUtilization (some (i :: rest)) m = getMonthUtilization (some rest) m))
    ∧ getMonthUtilization (some [⟨"july", "0.75"⟩]) "July" = some (3/4) := by
  constructor
  · intro xs m
    refine ⟨?_, ?_, ?_⟩
    · intro h
      have hf : xs.find? (fun i => jsToLower i.month == jsToLower m) = none :=
        List.find?_eq_none.mpr (fun x hx => by simpa using h x hx)
      constructor
      · simp [getMonthUtilization_some, hf]
      · simp [getMonthUtilization_some, hf, formatPercentage]
    · intro i rest hm
      have hf : (i :: rest).find? (fun j => jsToLower j.month == jsToLower m) = some i :=
        List.find?_cons_of_pos _ (by simpa using hm)
      simp [getMonthUtilization_some, hf]
    · intro i rest hm
      have hf : (i :: rest).find? (fun j => jsToLower j.month == jsToLower m) =
          rest.find? (fun j => jsToLower j.month == jsToLower m) :=
        List.find?_cons_of_neg _ (by simpa using hm)
      rw [getMonthUtilization_some, getMonthUtilization_some, hf]
  · rw [show getMonthUtilization (some [⟨"july", "0.75"⟩]) "July" =
      jsParseFloat "0.75" from rfl, jsParseFloat_075]

/-- claim C8 (witness): the no-match hypothesis holds at a concrete
august entry looked up for July. -/
theorem claim_C8_witness :
    getMonthUtilization (some [⟨"august", "0.5"⟩]) "July" = none :=
  ((claim_C8.1 [⟨"august", "0.5"⟩] "July").1 (by decide)).1

/-- claim C10: when both role fields are populated, entity data (including
the status used by the filter) comes from the employees payload, yet the
external suffix is still appended because the tag only tests presence of
the externals field. -/
theorem claim_C10 (months : List String) (r : SourceRecord) (e x : Entity)
    (he : r.employees = some e) (hx : r.externals = some x) :
    resolveEntity r = some e
    ∧ activeRecord r = (e.status == some "active")
    ∧ rowFromRecord months r = some (buildEntityRow months e true)
    ∧ jsObjGet (buildEntityRow [] e true) "person" =
        some (e.firstname ++ " " ++ e.lastname ++ " (External)") := by
  have hre : resolveEntity r = some e := by
    unfold resolveEntity jsOrObj
    rw [he]
  refine ⟨hre, ?_, ?_, ?_⟩
  · unfold activeRecord
    rw [hre]
  · unfold rowFromRecord
    rw [hre, hx]
    rfl
  · rfl

/-- claim C10 (witness): the double-role equations hold at the concrete
record carrying both an employees and an externals payload. -/
theorem claim_C10_witness :
    rowFromRecord [] recordBoth = some (buildEntityRow [] entityEmpOne true) :=
  (claim_C10 [] recordBoth entityEmpOne entityExtTwo rfl rfl).2.2.1

section RowAssemblyLemmas

/-- A record passes the active filter exactly when its resolved entity has
status active. -/
theorem activeRecord_iff (r : SourceRecord) :
    activeRecord r = true ↔ ∃ e, resolveEntity r = some e ∧ e.status = some "active" := by
  unfold activeRecord
  cases hre : resolveEntity r with
  | none => simp
  | some e =>
    show (e.status == some "active") = true ↔ _
    simp

/-- Defining equation of rowFromRecord on a resolvable record. -/
theorem rowFromRecord_eq_some (months : List String) (r : SourceRecord) (e : Entity)
    (h : resolveEntity r = some e) :
    rowFromRecord months r = some (buildEntityRow months e r.externals.isSome) := by
  unfold rowFromRecord
  rw [h]

/-- The assembler is the per-record row builder mapped over the active
records: the trailing null filter removes nothing. -/
theorem transformToTableData_eq_map (d : List SourceRecord) (months : List String) :
    transformToTableData d months =
      (d.filter activeRecord).map (fun r => (rowFromRecord months r).getD []) := by
  unfold transformToTableData
  have key : ∀ l : List SourceRecord, (∀ r ∈ l, activeRecord r = true) →
      (l.map (rowFromRecord months)).filterMap id =
        l.map (fun r => (rowFromRecord months r).getD []) := by
    intro l
    induction l with
    | nil => intro _; rfl
    | cons a t ih =>
      intro hl
      obtain ⟨e, hre, _⟩ := (activeRecord_iff a).mp (hl a (List.mem_cons_self a t))
      have h1 := rowFromRecord_eq_some months a e hre
      simp [h1, ih (fun r hr => hl r (List.mem_cons_of_mem a hr))]
  exact key (d.filter activeRecord) (fun r hr => (List.mem_filter.mp hr).2)

/-- Keys of a row after one assignment. -/
theorem rowKeys_jsObjSet (o : Row) (k v x : String) :
    x ∈ rowKeys (jsObjSet o k v) ↔ x ∈ rowKeys o ∨ x = k := by
  induction o with
  | nil => simp [jsObjSet, rowKeys]
  | cons p rest ih =>
    obtain ⟨k1, w1⟩ := p
    by_cases h : (k1 == k) = true
    · have hk : k1 = k := eq_of_beq h
      rw [show jsObjSet ((k1, w1) :: rest) k v = (k1, v) :: rest from by
        simp [jsObjSet, h]]
      simp [rowKeys, hk]
      tauto
    · rw [show jsObjSet ((k1, w1) :: rest) k v = (k1, w1) :: jsObjSet rest k v from by
        simp [jsObjSet, h]]
      rw [show rowKeys ((k1, w1) :: jsObjSet rest k v) = k1 :: rowKeys (jsObjSet rest k v) from rfl,
        show rowKeys ((k1, w1) :: rest) = k1 :: rowKeys rest from rfl,
        List.mem_cons, List.mem_cons, ih]
      tauto

/-- Reading back the key just assigned. -/
theorem jsObjGet_jsObjSet_self (o : Row) (k v : String) :
    jsObjGet (jsObjSet o k v) k = some v := by
  induction o with
  | nil => simp [jsObjSet, jsObjGet]
  | cons p rest ih =>
    obtain ⟨k1, w1⟩ := p
    by_cases h : (k1 == k) = true
    · simp [jsObjSet, h, jsObjGet]
    · simp [jsObjSet, h, jsObjGet, ih]

/-- Assignment leaves every other key unchanged. -/
theorem jsObjGet_jsObjSet_ne (o : Row) (k v x : String) (h : x ≠ k) :
    jsObjGet (jsObjSet o k v) x = jsObjGet o x := by
  have hkx : (k == x) = false := beq_eq_false_iff_ne.mpr (Ne.symm h)
  induction o with
  | nil => simp [jsObjSet, jsObjGet, hkx]
  | cons p rest ih =>
    obtain ⟨k1, w1⟩ := p
    by_cases h1 : (k1 == k) = true
    · have hk : k1 = k := eq_of_beq h1
      have h1x : (k1 == x) = false := by
        rw [hk]
        exact hkx
      simp [jsObjSet, h1, jsObjGet, h1x]
    · by_cases h2 : (k1 == x) = true
      · simp [jsObjSet, h1, jsObjGet, h2]
      · simp [jsObjSet, h1, jsObjGet, h2, ih]

/-- Folding assignments over months does not touch a key outside them. -/
theorem foldSet_get_of_not_mem (ms : List String) (f : String → String) (o : Row)
    (x : String) (hx : x ∉ ms) :
    jsObjGet (ms.foldl (fun row month => jsObjSet row month (f month)) o) x =
      jsObjGet o x := by
  induction ms generalizing o with
  | nil => rfl
  | cons a t ih =>
    have hxa : x ≠ a := fun hh => hx (hh ▸ List.mem_cons_self a t)
    have hxt : x ∉ t := fun hh => hx (List.mem_cons_of_mem a hh)
    show jsObjGet (t.foldl _ (jsObjSet o a (f a))) x = _
    rw [ih (jsObjSet o a (f a)) hxt, jsObjGet_jsObjSet_ne o a (f a) x hxa]

/-- Folding assignments over distinct months binds each month to its
computed cell. -/
theorem foldSet_get_of_mem (ms : List String) (f : String → String) (o : Row)
    (x : String) (hx : x ∈ ms) (hnd : ms.Nodup) :
    jsObjGet (ms.foldl (fun row month => jsObjSet row month (f month)) o) x =
      some (f x) := by
  induction ms generalizing o with
  | nil => cases hx
  | cons a t ih =>
    rcases List.mem_cons.mp hx with rfl | hxt
    · have hxt : x ∉ t := (List.nodup_cons.mp hnd).1
      show jsObjGet (t.foldl _ (jsObjSet o x (f x))) x = some (f x)
      rw [foldSet_get_of_not_mem t f _ x hxt, jsObjGet_jsObjSet_self]
    · show jsObjGet (t.foldl _ (jsObjSet o a (f a))) x = some (f x)
      exact ih (jsObjSet o a (f a)) hxt (List.nodup_cons.mp hnd).2

/-- Keys after folding assignments over months. -/
theorem foldSet_keys (ms : List String) (f : String → String) (o : Row) (x : String) :
    x ∈ rowKeys (ms.foldl (fun row month => jsObjSet row month (f month)) o) ↔
      x ∈ rowKeys o ∨ x ∈ ms := by
  induction ms generalizing o with
  | nil => simp
  | cons a t ih =>
    show x ∈ rowKeys (t.foldl _ (jsObjSet o a (f a))) ↔ _
    rw [ih, rowKeys_jsObjSet]
    simp [List.mem_cons]
    tauto

end RowAssemblyLemmas

/-- claim C2: the assembler emits exactly one row per record whose resolved
entity is active, in input order; inactive or roleless records yield no
row, and the output length equals the count of active records. -/
theorem claim_C2 (dataRows : List SourceRecord) (monthsToMap : List String) :
    (transformToTableData dataRows monthsToMap).length = dataRows.countP activeRecord
    ∧ transformToTableData dataRows monthsToMap =
        (dataRows.filter activeRecord).map
          (fun r => (rowFromRecord monthsToMap r).getD [])
    ∧ (∀ r, activeRecord r = true ↔
        ∃ e, resolveEntity r = some e ∧ e.status = some "active") := by
  refine ⟨?_, transformToTableData_eq_map dataRows monthsToMap, fun r => activeRecord_iff r⟩
  rw [transformToTableData_eq_map, List.length_map, List.countP_eq_length_filter]

/-- claim C4: every emitted row carries a key for every discovered month
and no key beyond the fixed columns and the discovered months; each month
key holds the formatted lookup of that entity, the sentinel when the
entity has no data for it. -/
theorem claim_C4 (data : List SourceRecord) (row : Row)
    (hrow : row ∈ transformToTableData data (getAvailableMonths data)) :
    (∀ m ∈ getAvailableMonths data, m ∈ rowKeys row)
    ∧ (∀ k ∈ rowKeys row, k ∈ baseKeys ∨ k ∈ getAvailableMonths data)
    ∧ ∃ r ∈ data, ∃ e, resolveEntity r = some e ∧
        ∀ m ∈ getAvailableMonths data, jsObjGet row m = some (entityMonthCell e m) := by
  rw [transformToTableData_eq_map] at hrow
  obtain ⟨r, hrf, hrw⟩ := List.mem_map.mp hrow
  have hract := List.mem_filter.mp hrf
  obtain ⟨e, hre, hst⟩ := (activeRecord_iff r).mp hract.2
  have hb : row = buildEntityRow (getAvailableMonths data) e r.externals.isSome := by
    rw [← hrw, rowFromRecord_eq_some _ r e hre]
    rfl
  have hnd : (getAvailableMonths data).Nodup := nodup_getAvailableMonths data
  refine ⟨?_, ?_, r, hract.1, e, hre, ?_⟩
  · intro m hm
    rw [hb]
    unfold buildEntityRow
    rw [foldSet_keys]
    exact Or.inr hm
  · intro k hk
    rw [hb] at hk
    unfold buildEntityRow at hk
    rcases (foldSet_keys _ _ _ k).mp hk with hbase | hmon
    · exact Or.inl hbase
    · exact Or.inr hmon
  · intro m hm
    rw [hb]
    unfold buildEntityRow
    exact foldSet_get_of_mem _ _ _ m hm hnd

/-- claim C4 (witness): the membership hypothesis holds for the concrete
row assembled from the January data set, and its keys include January. -/
theorem claim_C4_witness : "January" ∈ rowKeys rowJan := by
  have hAvail : getAvailableMonths dataJan = ["January"] := by
    unfold getAvailableMonths
    rw [show collectMonths dataJan = ["January"] from by decide]
    simp
  have h90 : formatPercentage (jsParseFloat "0.9") = "90%" := by
    rw [jsParseFloat_09,
      formatPercentage_eval (9/10) 90 (by norm_num) (by norm_num) (by norm_num)]
    decide
  have hnet : formatCurrency (calculateNetEarningsPrevMonth entityJan) = "0.00 EUR" := by
    rw [show calculateNetEarningsPrevMonth entityJan = some ((0 : Rat) - 0) from rfl,
      show ((0 : Rat) - 0) = (0 : Rat) from by norm_num]
    exact formatCurrency_zero
  have hsym : transformToTableData dataJan ["January"] =
      [[("person", "Ana Lee"), ("past12Months", "0%"), ("y2d", "0%"),
        ("netEarningsPrevMonth", formatCurrency (calculateNetEarningsPrevMonth entityJan)),
        ("January", formatPercentage (jsParseFloat "0.9"))]] := rfl
  rw [h90, hnet] at hsym
  have hmem : rowJan ∈ transformToTableData dataJan (getAvailableMonths dataJan) := by
    rw [hAvail, hsym]
    exact List.mem_singleton.mpr rfl
  exact (claim_C4 dataJan rowJan hmem).1 "January" (by rw [hAvail]; decide)

end UtilTable
